import Mathlib

/-!
# Verification of the F1 statistics dashboard (`f1tests1st.py`)

A shallow embedding of the dashboard script's data transformations.  The
script is sequential glue code: it loads a session, extracts laps and
telemetry, reshapes telemetry into colored track segments, branches on the
session format for the position-change chart, and fetches news headlines.
Floats are modelled as rationals, numpy arrays and pandas columns as lists,
and external library calls (matplotlib colouring, the streamlit resource
cache, the news client, the fastest-lap picker) by definitions that follow
their documented semantics.
-/

/-- A telemetry sample of a lap: track coordinates `X`, `Y` and the engaged
gear `nGear` (columns `tel['X']`, `tel['Y']`, `tel['nGear']`).  Coordinates
are floats, modelled as rationals; the gear channel holds integers. -/
structure TelemetrySample where
  x : ℚ
  y : ℚ
  nGear : ℤ
deriving DecidableEq, Repr

/-- `points = np.array([x, y]).T.reshape(-1, 1, 2)` with
`x = np.array(tel['X'].values)` and `y = np.array(tel['Y'].values)`:
the ordered point sequence `P[k] = (X_k, Y_k)` of the telemetry. -/
def points (tel : List TelemetrySample) : List (ℚ × ℚ) :=
  tel.map fun s => (s.x, s.y)

/-- `segments = np.concatenate([points[:-1], points[1:]], axis=1)`:
`points[:-1]` drops the last point, `points[1:]` drops the first, and
concatenation along axis 1 pairs them elementwise, giving the list of
consecutive point pairs. -/
def segments (tel : List TelemetrySample) : List ((ℚ × ℚ) × (ℚ × ℚ)) :=
  (points tel).dropLast.zip (points tel).tail

/-- `gear = tel['nGear'].to_numpy().astype(float)`: the gear channel as a
float array, parallel to the point sequence. -/
def gearArray (tel : List TelemetrySample) : List ℚ :=
  tel.map fun s => (s.nGear : ℚ)

/-- `lc_comp.set_array(gear)` on the `LineCollection` built from `segments`:
the collection colours segment `i` by the scalar `gear[i]`, i.e. the drawn
data is the elementwise pairing of the segments with the gear array (the
trailing gear value, one more than the number of segments, is never used by
the renderer). -/
def taggedSegments (tel : List TelemetrySample) :
    List (((ℚ × ℚ) × (ℚ × ℚ)) × ℚ) :=
  (segments tel).zip (gearArray tel)

/-- C1: the segment transform yields `S[i] = (P[i], P[i+1])` in input order —
exactly `N - 1` segments for `N ≥ 2` samples, and the empty collection for
`N ∈ {0, 1}`. -/
theorem segments_spec (tel : List TelemetrySample) :
    (2 ≤ tel.length → (segments tel).length = tel.length - 1) ∧
    (tel.length ≤ 1 → segments tel = []) ∧
    (∀ (i : ℕ) (a b : ℚ × ℚ),
      (points tel)[i]? = some a → (points tel)[i + 1]? = some b →
      (segments tel)[i]? = some (a, b)) := by
  have hlen : (points tel).length = tel.length := List.length_map _ _
  refine ⟨fun _ => ?_, fun h1 => ?_, fun i a b ha hb => ?_⟩
  · simp [segments, List.length_zip, hlen]
  · match tel, h1 with
    | [], _ => rfl
    | [s], _ => rfl
  · have hb' : i + 1 < (points tel).length := by
      exact (List.getElem?_eq_some_iff.mp hb).1
    have hdrop : (points tel).dropLast[i]? = some a := by
      rw [List.getElem?_dropLast, if_pos (by omega)]
      exact ha
    have htail : (points tel).tail[i]? = some b := by
      rw [List.getElem?_tail]
      exact hb
    exact List.getElem?_zip_eq_some.mpr ⟨hdrop, htail⟩

/-- A concrete three-sample telemetry trace used to instantiate the
segment-transform theorems. -/
def telW : List TelemetrySample :=
  [⟨0, 0, 1⟩, ⟨1, 2, 3⟩, ⟨4, 5, 2⟩]

/-- Witness for C1 at a concrete three-sample trace: two segments, the first
connecting samples 0 and 1. -/
theorem segments_spec_witness :
    (segments telW).length = 2 ∧
    (segments telW)[0]? = some ((0, 0), (1, 2)) := by
  refine ⟨(segments_spec telW).1 (by decide), ?_⟩
  exact (segments_spec telW).2.2 0 (0, 0) (1, 2) rfl rfl

/-- C2: the colour scalar attached to segment `i` is the gear recorded at
sample `i`, the segment's start sample, for every `i` in `[0, N-2]`. -/
theorem set_array_tags (tel : List TelemetrySample) :
    ∀ i : ℕ, i + 1 < tel.length →
      ∃ (s : TelemetrySample) (seg : (ℚ × ℚ) × (ℚ × ℚ)),
        tel[i]? = some s ∧
        (taggedSegments tel)[i]? = some (seg, (s.nGear : ℚ)) := by
  intro i hi
  obtain ⟨s, hs⟩ : ∃ s, tel[i]? = some s := by
    cases h : tel[i]? with
    | some s => exact ⟨s, rfl⟩
    | none =>
      rw [List.getElem?_eq_none_iff] at h
      omega
  obtain ⟨t, ht⟩ : ∃ t, tel[i + 1]? = some t := by
    cases h : tel[i + 1]? with
    | some t => exact ⟨t, rfl⟩
    | none =>
      rw [List.getElem?_eq_none_iff] at h
      omega
  have ha : (points tel)[i]? = some (s.x, s.y) := by
    simp [points, List.getElem?_map, hs]
  have hb : (points tel)[i + 1]? = some (t.x, t.y) := by
    simp [points, List.getElem?_map, ht]
  have hseg := (segments_spec tel).2.2 i _ _ ha hb
  refine ⟨s, ((s.x, s.y), (t.x, t.y)), hs,
    List.getElem?_zip_eq_some.mpr ⟨hseg, ?_⟩⟩
  simp only [gearArray, List.getElem?_map, hs]
  rfl

/-- Witness for C2 at the concrete trace: segment 0 carries gear 1, the gear
of sample 0 (and not gear 3 of sample 1). -/
theorem set_array_tags_witness :
    ∃ (s : TelemetrySample) (seg : (ℚ × ℚ) × (ℚ × ℚ)),
      telW[0]? = some s ∧
      (taggedSegments telW)[0]? = some (seg, (s.nGear : ℚ)) :=
  set_array_tags telW 0 (by decide)

/-- `custom_gear_colors`: the fixed eight-colour palette for gears 1–8. -/
def custom_gear_colors : List String :=
  ["#FF0000", "#FF4500", "#FFA500", "#FFD700",
   "#D9FF2FEB", "#7FFF00", "#00FF00", "#008000"]

/-- `plt.Normalize(vmin, vmax)` with the default `clip=False`: the affine map
`(g - vmin) / (vmax - vmin)` of a data value onto the unit interval; values
outside `[vmin, vmax]` land outside `[0, 1]` and are passed on. -/
def normalizeValue (vmin vmax g : ℚ) : ℚ :=
  (g - vmin) / (vmax - vmin)

/-- `ListedColormap` lookup with `n` colours at a normalized value `v`,
following matplotlib's `Colormap.__call__` quantization: `v < 0` selects the
under colour, which for a `ListedColormap` with no explicit `set_under`
defaults to entry 0; `v * n == n` (i.e. `v = 1`) is clamped back to entry
`n - 1`; `v > 1` selects the over colour, defaulting to entry `n - 1`; and
`0 ≤ v < 1` selects entry `⌊v * n⌋`. -/
def listedColormapIndex (n : ℕ) (v : ℚ) : ℕ :=
  if v < 0 then 0
  else if 1 ≤ v then n - 1
  else (⌊v * (n : ℚ)⌋).toNat

/-- The colour a gear scalar `g` receives from
`LineCollection(segments, norm=plt.Normalize(1, 9), cmap=ListedColormap(custom_gear_colors))`:
normalize with `vmin = 1`, `vmax = 9`, then look the value up in the
eight-entry palette. -/
def gearColor (g : ℚ) : String :=
  custom_gear_colors.getD
    (listedColormapIndex custom_gear_colors.length (normalizeValue 1 9 g))
    "#000000"

/-- Unfolded form of `gearColor`: normalization sends `g` to `(g - 1) / 8`,
and the quantized index is `⌊g - 1⌋` inside the unit band. -/
theorem gearColor_eq (g : ℚ) :
    gearColor g = custom_gear_colors.getD
      (if (g - 1) / 8 < 0 then 0
       else if 1 ≤ (g - 1) / 8 then 7
       else (⌊g - 1⌋).toNat) "#000000" := by
  have h1 : normalizeValue 1 9 g = (g - 1) / 8 := by
    unfold normalizeValue; norm_num
  have h2 : ((custom_gear_colors.length : ℕ) : ℚ) = 8 := by
    norm_num [custom_gear_colors]
  have h3 : (g - 1) / 8 * 8 = g - 1 :=
    div_mul_cancel₀ _ (by norm_num)
  unfold gearColor listedColormapIndex
  rw [h1, h2, h3]
  rfl

/-- C3: integer gears `n ∈ [1, 8]` map exactly to palette entry `n - 1`;
gears below 1 get the gear-1 colour and gears above 8 the gear-8 colour, so
no out-of-range value ever indexes outside the palette. -/
theorem gearColor_spec (g : ℚ) :
    (∀ n : ℤ, g = (n : ℚ) → 1 ≤ n → n ≤ 8 →
      gearColor g = custom_gear_colors.getD (n - 1).toNat "#000000") ∧
    (g < 1 → gearColor g = gearColor 1) ∧
    (8 < g → gearColor g = gearColor 8) := by
  refine ⟨fun n hg h1 h8 => ?_, fun hlt => ?_, fun hgt => ?_⟩
  · subst hg
    have hn1 : (1 : ℚ) ≤ (n : ℚ) := by exact_mod_cast h1
    have hn8 : ((n : ℚ)) ≤ 8 := by exact_mod_cast h8
    have hv0 : ¬ ((n : ℚ) - 1) / 8 < 0 := by
      apply not_lt.mpr
      apply div_nonneg _ (by norm_num)
      linarith
    have hv1 : ¬ (1 : ℚ) ≤ ((n : ℚ) - 1) / 8 := by
      apply not_le.mpr
      rw [div_lt_one (by norm_num)]
      linarith
    have hfloor : ⌊(n : ℚ) - 1⌋ = n - 1 := by
      rw [show (n : ℚ) - 1 = ((n - 1 : ℤ) : ℚ) by push_cast; ring]
      exact Int.floor_intCast _
    rw [gearColor_eq, if_neg hv0, if_neg hv1, hfloor]
  · have hv : ((g - 1) / 8 : ℚ) < 0 := by
      apply div_neg_of_neg_of_pos _ (by norm_num)
      linarith
    rw [gearColor_eq, if_pos hv, gearColor_eq]
    norm_num
  · have hv0 : ¬ ((g - 1) / 8 : ℚ) < 0 := by
      apply not_lt.mpr
      apply div_nonneg _ (by norm_num)
      linarith
    have h8r : gearColor 8 = custom_gear_colors.getD 7 "#000000" := by
      rw [gearColor_eq]
      norm_num
      rfl
    rw [gearColor_eq, h8r]
    by_cases hv1 : (1 : ℚ) ≤ (g - 1) / 8
    · rw [if_neg hv0, if_pos hv1]
    · have hlt9 : g - 1 < 8 := by
        have := (div_lt_one (by norm_num : (0 : ℚ) < 8)).mp (not_le.mp hv1)
        linarith
      have hfl : ⌊g - 1⌋ = 7 := by
        rw [Int.floor_eq_iff]
        push_cast
        constructor <;> linarith
      rw [if_neg hv0, if_neg hv1, hfl]
      rfl

/-- Witness for C3: gear 5 gets palette entry 4, gear 0 renders like gear 1,
and gear 9 renders like gear 8. -/
theorem gearColor_spec_witness :
    gearColor 5 = custom_gear_colors.getD ((5 : ℤ) - 1).toNat "#000000" ∧
    gearColor 0 = gearColor 1 ∧
    gearColor 9 = gearColor 8 := by
  refine ⟨(gearColor_spec 5).1 5 (by norm_num) (by decide) (by decide), ?_, ?_⟩
  · exact (gearColor_spec 0).2.1 (by norm_num)
  · exact (gearColor_spec 9).2.2 (by norm_num)

/-- One step of the headline loop body, `article_link[title] = link`, on a
Python dict modelled as an insertion-ordered association list: assigning to
an existing key overwrites its value in place (keeping the key's original
position), a new key is appended at the end. -/
def dictInsert : List (String × String) → String → String →
    List (String × String)
  | [], title, link => [(title, link)]
  | p :: m, title, link =>
      if p.1 = title then (title, link) :: m
      else p :: dictInsert m title link

/-- The loop `for article in all_articles: article_link[title] = link`
followed by iterating `article_link.items()` in insertion order: the
displayed (title, url) list. -/
def article_link (allArticles : List (String × String)) :
    List (String × String) :=
  allArticles.foldl (fun m a => dictInsert m a.1 a.2) []

/-- Observer: the url displayed next to title `t` (first entry with that
key; dict iteration shows each key once). -/
def lookupTitle : List (String × String) → String → Option String
  | [], _ => none
  | p :: m, t => if p.1 = t then some p.2 else lookupTitle m t

/-- Observer: the url of the last fetched article with title `t`. -/
def lastUrl : List (String × String) → String → Option String
  | [], _ => none
  | p :: l, t => (lastUrl l t).or (if p.1 = t then some p.2 else none)

/-- Observer: the url of the first fetched article with title `t`. -/
def firstUrl : List (String × String) → String → Option String
  | [], _ => none
  | p :: l, t => if p.1 = t then some p.2 else firstUrl l t

theorem lookupTitle_dictInsert (m : List (String × String)) (k v t : String) :
    lookupTitle (dictInsert m k v) t =
      if k = t then some v else lookupTitle m t := by
  induction m with
  | nil => by_cases h : k = t <;> simp [dictInsert, lookupTitle, h]
  | cons a m ih =>
    by_cases hak : a.1 = k
    · by_cases hkt : k = t <;>
        simp [dictInsert, hak, lookupTitle, hkt]
    · by_cases hat : a.1 = t
      · have hkt : ¬ k = t := fun h => hak (h ▸ hat)
        have htk : ¬ t = k := fun h => hkt h.symm
        simp [dictInsert, hak, lookupTitle, hat, hkt, htk]
      · simp [dictInsert, hak, lookupTitle, hat, ih]

theorem lookupTitle_foldl (l : List (String × String)) :
    ∀ (m : List (String × String)) (t : String),
      lookupTitle (l.foldl (fun m a => dictInsert m a.1 a.2) m) t =
        (lastUrl l t).or (lookupTitle m t) := by
  induction l with
  | nil => intro m t; simp [lastUrl]
  | cons a l ih =>
    intro m t
    rw [List.foldl_cons, ih, lookupTitle_dictInsert]
    cases h : lastUrl l t <;> by_cases ha : a.1 = t <;>
      simp [lastUrl, h, ha]

theorem keys_dictInsert (m : List (String × String)) (k v : String) :
    (dictInsert m k v).map Prod.fst =
      if k ∈ m.map Prod.fst then m.map Prod.fst
      else m.map Prod.fst ++ [k] := by
  induction m with
  | nil => simp [dictInsert]
  | cons a m ih =>
    by_cases hak : a.1 = k
    · simp [dictInsert, hak]
    · have hka : ¬ k = a.1 := fun h => hak h.symm
      by_cases hk : k ∈ m.map Prod.fst <;>
        simp [dictInsert, hak, hka, hk, ih]

theorem nodup_keys_foldl (l : List (String × String)) :
    ∀ m : List (String × String), (m.map Prod.fst).Nodup →
      ((l.foldl (fun m a => dictInsert m a.1 a.2) m).map Prod.fst).Nodup := by
  induction l with
  | nil => intro m hm; exact hm
  | cons a l ih =>
    intro m hm
    rw [List.foldl_cons]
    apply ih
    rw [keys_dictInsert]
    by_cases hk : a.1 ∈ m.map Prod.fst
    · rwa [if_pos hk]
    · rw [if_neg hk]
      simp [List.nodup_append, hm, hk]

/-- Counterexample to C4 as stated: with two fetched articles sharing the
title `"A"` but with different urls `"u1"` (first) and `"u2"` (second), the
displayed pair is `("A", "u2")` — the url of the *last* occurrence — while
the first occurrence's pair `("A", "u1")` is not displayed. -/
theorem article_link_counterexample :
    article_link [("A", "u1"), ("A", "u2")] = [("A", "u2")] ∧
    lookupTitle (article_link [("A", "u1"), ("A", "u2")]) "A" = some "u2" ∧
    firstUrl [("A", "u1"), ("A", "u2")] "A" = some "u1" ∧
    ("A", "u1") ∉ article_link [("A", "u1"), ("A", "u2")] := by
  refine ⟨rfl, rfl, rfl, ?_⟩
  decide

/-- C4 (amended): the displayed headline list has at most one entry per
distinct title, and the url displayed with a title is the url of the *last*
occurrence of that title in the fetched list (dict assignment overwrites
the stored url on a duplicate title). -/
theorem article_link_amended (allArticles : List (String × String)) :
    ((article_link allArticles).map Prod.fst).Nodup ∧
    ∀ t : String, lookupTitle (article_link allArticles) t =
      lastUrl allArticles t := by
  constructor
  · exact nodup_keys_foldl allArticles [] (by simp)
  · intro t
    rw [article_link, lookupTitle_foldl]
    simp [lookupTitle]

/-- Key of the resource cache on `load_race_session`:
`(year, race_name, race_format_selection)`. -/
structure SessionKey where
  year : ℤ
  raceName : String
  raceFormat : String
deriving DecidableEq, Repr

/-- State of the `@st.cache_resource` store across renders: the memoized
entries (key to loaded session object, identified by a numeric id) together
with the log of executions of the expensive load step
(`fastf1.get_session(...)` followed by `session.load()`). -/
structure CacheState where
  entries : List (SessionKey × ℕ)
  loadCalls : List SessionKey
deriving DecidableEq, Repr

/-- Modelled from the spec: the `@st.cache_resource` decorator on
`load_race_session(year, race_name, race_format_selection)` — "a resource
cache keyed by (year, event, session type) for the loaded session … must be
computed at most once per key per process lifetime".  On a hit the stored
session object is returned unchanged; on a miss the expensive load runs,
its result is stored under the key, and the fresh object is returned. -/
def load_race_session (s : CacheState) (k : SessionKey) : CacheState × ℕ :=
  match s.entries.find? fun e => e.1 == k with
  | some e => (s, e.2)
  | none =>
      let v := s.entries.length
      ({ entries := s.entries ++ [(k, v)],
         loadCalls := s.loadCalls ++ [k] }, v)

/-- C5: calling the session loader twice with an identical key returns the
same cached session object, leaves the cache state untouched on the second
call, and executes the expensive load exactly once for a key not yet
cached. -/
theorem load_race_session_once (s : CacheState) (k : SessionKey) :
    (load_race_session (load_race_session s k).1 k).2 =
      (load_race_session s k).2 ∧
    (load_race_session (load_race_session s k).1 k).1 =
      (load_race_session s k).1 ∧
    ((s.entries.find? fun e => e.1 == k) = none →
      (load_race_session s k).1.loadCalls = s.loadCalls ++ [k]) := by
  cases h : s.entries.find? fun e => e.1 == k with
  | some e =>
    refine ⟨?_, ?_, fun hn => by simp at hn⟩ <;>
      simp [load_race_session, h]
  | none =>
    have hfind : ((s.entries ++ [(k, s.entries.length)]).find?
        fun e => e.1 == k) = some (k, s.entries.length) := by
      rw [List.find?_append, h]
      simp
    refine ⟨?_, ?_, fun _ => ?_⟩ <;>
      simp [load_race_session, h, hfind]

/-- Witness for C5 from the empty cache at the key
`(2024, "Monaco Grand Prix", "R")`. -/
theorem load_race_session_once_witness :
    (load_race_session
        (load_race_session ⟨[], []⟩ ⟨2024, "Monaco Grand Prix", "R"⟩).1
        ⟨2024, "Monaco Grand Prix", "R"⟩).2 =
      (load_race_session ⟨[], []⟩ ⟨2024, "Monaco Grand Prix", "R"⟩).2 ∧
    (load_race_session ⟨[], []⟩ ⟨2024, "Monaco Grand Prix", "R"⟩).1.loadCalls =
      [] ++ [⟨2024, "Monaco Grand Prix", "R"⟩] := by
  have h := load_race_session_once ⟨[], []⟩ ⟨2024, "Monaco Grand Prix", "R"⟩
  exact ⟨h.1, h.2.2 rfl⟩

/-- A lap record (one row of `race.laps` for a driver): driver abbreviation
(`'Driver'` column), lap number, lap time (null for invalid laps), race
position, and the lap's telemetry trace. -/
structure Lap where
  driver : String
  lapNumber : ℕ
  lapTime : Option ℚ
  position : ℕ
  telemetry : List TelemetrySample
deriving DecidableEq, Repr

/-- Modelled from the spec (§4.3): `driver_laps.pick_fastest()` of the data
provider — "selects the single lap with minimum lap time among valid
(non-null) lap times; returns none if no valid lap exists", keeping the
earliest such lap on ties. -/
def pick_fastest (laps : List Lap) : Option Lap :=
  (laps.filter fun l => l.lapTime.isSome).foldl
    (fun acc l =>
      match acc with
      | none => some l
      | some b =>
          if l.lapTime.getD 0 < b.lapTime.getD 0 then some l else some b)
    none

/-- What one gear-track panel displays: a coloured segment chart with its
title, or a warning message in the driver's column. -/
inductive GearPanel where
  | chart (tagged : List (((ℚ × ℚ) × (ℚ × ℚ)) × ℚ)) (title : String)
  | warning (msg : String)
deriving DecidableEq, Repr

/-- Body of the gear-change loop for one driver: `if not driver_laps.empty`
guards the `pick_fastest()` call, `if fastest_lap is not None` guards the
chart; each failing guard routes to `gear_cols[i].warning(...)` instead. -/
def gearPanel (drvAbb drvName : String) (driverLaps : List Lap) : GearPanel :=
  if !driverLaps.isEmpty then
    match pick_fastest driverLaps with
    | some fastestLap =>
        .chart (taggedSegments fastestLap.telemetry)
          (drvName ++ " - " ++ toString (fastestLap.lapTime.getD 0))
    | none => .warning ("No valid lap found for " ++ drvAbb)
  else .warning ("No lap data available for " ++ drvAbb)

/-- `for i, drv_abb in enumerate(drivers_to_plot)`: one panel per selected
driver (abbreviation, display name, laps), each in its own column. -/
def gearChangeLoop (drivers : List (String × String × List Lap)) :
    List GearPanel :=
  drivers.map fun d => gearPanel d.1 d.2.1 d.2.2

/-- C6: if the first driver has no laps or no determinable fastest lap, the
first panel is a warning (no unhandled error), the second panel is whatever
the second driver's data yields, and in particular it is still a chart
whenever the second driver has a fastest lap. -/
theorem gearPanel_degradation (abb1 name1 : String) (laps1 : List Lap)
    (abb2 name2 : String) (laps2 : List Lap) :
    (laps1 = [] ∨ pick_fastest laps1 = none) →
    (∃ msg, (gearChangeLoop
        [(abb1, name1, laps1), (abb2, name2, laps2)])[0]? =
      some (.warning msg)) ∧
    ((gearChangeLoop [(abb1, name1, laps1), (abb2, name2, laps2)])[1]? =
      some (gearPanel abb2 name2 laps2)) ∧
    (∀ f, pick_fastest laps2 = some f →
      (gearChangeLoop [(abb1, name1, laps1), (abb2, name2, laps2)])[1]? =
        some (.chart (taggedSegments f.telemetry)
          (name2 ++ " - " ++ toString (f.lapTime.getD 0)))) := by
  intro h
  refine ⟨?_, rfl, fun f hf => ?_⟩
  · show ∃ msg, some (gearPanel abb1 name1 laps1) = some (.warning msg)
    cases laps1 with
    | nil => exact ⟨_, rfl⟩
    | cons l ls =>
      rcases h with h | h
      · cases h
      · exact ⟨"No valid lap found for " ++ abb1, by simp [gearPanel, h]⟩
  · show some (gearPanel abb2 name2 laps2) = _
    have hne : laps2.isEmpty = false := by
      cases laps2 with
      | nil => cases hf
      | cons l ls => rfl
    simp [gearPanel, hne, hf]

/-- A concrete valid lap over the three-sample trace, for the witnesses. -/
def lapW : Lap :=
  { driver := "HAM", lapNumber := 1, lapTime := some 90,
    position := 1, telemetry := telW }

/-- Witness for C6: first driver without laps gets a warning while the
second driver's panel is a chart of their fastest lap. -/
theorem gearPanel_degradation_witness :
    (∃ msg, (gearChangeLoop
        [("VER", "Max Verstappen", []),
         ("HAM", "Lewis Hamilton", [lapW])])[0]? =
      some (GearPanel.warning msg)) ∧
    ((gearChangeLoop
        [("VER", "Max Verstappen", []),
         ("HAM", "Lewis Hamilton", [lapW])])[1]? =
      some (GearPanel.chart (taggedSegments lapW.telemetry)
        ("Lewis Hamilton" ++ " - " ++ toString (lapW.lapTime.getD 0)))) := by
  have h := gearPanel_degradation "VER" "Max Verstappen" []
    "HAM" "Lewis Hamilton" [lapW] (Or.inl rfl)
  exact ⟨h.1, h.2.2 lapW rfl⟩

/-- The sidebar mapping of the format selectbox value onto the session
code: `"Race"` becomes `"R"` and `"Qualifying"` becomes `"Q"`. -/
def sessionCode (sel : String) : String :=
  if sel = "Race" then "R"
  else if sel = "Qualifying" then "Q"
  else sel

/-- One driver's trace in the position-change chart:
`abb = drv_laps['Driver'].iloc[0]` — an unguarded positional access that
raises `IndexError` on an empty frame — then the `(LapNumber, Position)`
series plotted under the label `abb`. -/
def driverSeries (drvLaps : List Lap) :
    Except String (String × List (ℕ × ℕ)) :=
  match drvLaps.head? with
  | none => .error "single positional indexer is out-of-bounds"
  | some l =>
      .ok (l.driver, drvLaps.map fun lap => (lap.lapNumber, lap.position))

/-- What the position-change section renders: a chart (per-driver series,
the `ax.set_ylim` pair, the `ax.set_yticks` values), an uncaught exception,
or the plain text shown for qualifying. -/
inductive PositionPanel where
  | chart (series : List (String × List (ℕ × ℕ))) (ylim : ℚ × ℚ)
      (yticks : List ℕ)
  | failure (msg : String)
  | note (msg : String)
deriving DecidableEq, Repr

/-- The `if race_format_selection == "R"` branch: `for drv in race.drivers`
plots each driver's series (an empty lap frame aborts the render with the
exception), then `ax.set_ylim([20.5, 0.5])` and
`ax.set_yticks([1, 5, 10, 15, 20])`; in the `else` branch the page only
writes "No Position change during Qualifying". -/
def positionChangePanel (fmt : String) (drivers : List String)
    (lapsFor : String → List Lap) : PositionPanel :=
  if fmt = "R" then
    match drivers.mapM fun drv => driverSeries (lapsFor drv) with
    | .ok series => .chart series (41 / 2, 1 / 2) [1, 5, 10, 15, 20]
    | .error e => .failure e
  else .note "No Position change during Qualifying"

theorem mapM_driverSeries_ok (lapsFor : String → List Lap) :
    ∀ drivers : List String, (∀ d ∈ drivers, lapsFor d ≠ []) →
      ∃ series, (drivers.mapM fun drv => driverSeries (lapsFor drv)) =
        .ok series := by
  intro drivers
  induction drivers with
  | nil => exact fun _ => ⟨[], rfl⟩
  | cons a ds ih =>
    intro h
    obtain ⟨l, ls, hl⟩ : ∃ l ls, lapsFor a = l :: ls := by
      cases hh : lapsFor a with
      | nil => exact absurd hh (h a (by simp))
      | cons l ls => exact ⟨l, ls, rfl⟩
    obtain ⟨rest, hrest⟩ := ih fun d hd => h d (by simp [hd])
    refine ⟨(l.driver, (l :: ls).map fun lap => (lap.lapNumber, lap.position))
      :: rest, ?_⟩
    rw [List.mapM_cons, hrest]
    simp [driverSeries, hl]
    rfl

theorem mapM_driverSeries_error (lapsFor : String → List Lap) :
    ∀ (drivers : List String) (d : String), d ∈ drivers → lapsFor d = [] →
      ∃ e, (drivers.mapM fun drv => driverSeries (lapsFor drv)) =
        .error e := by
  intro drivers
  induction drivers with
  | nil => intro d hd; cases hd
  | cons a ds ih =>
    intro d hd he
    cases hs : driverSeries (lapsFor a) with
    | error e => exact ⟨e, by rw [List.mapM_cons, hs]; rfl⟩
    | ok s =>
      rcases List.mem_cons.mp hd with rfl | hd'
      · rw [he] at hs
        cases hs
      · obtain ⟨e, herr⟩ := ih d hd' he
        refine ⟨e, ?_⟩
        rw [List.mapM_cons, hs, herr]
        rfl

/-- C7: for a Qualifying selection the position-change section renders only
the textual note; for a Race selection (whenever every listed driver has at
least one lap, so the render completes) it renders a chart whose stored
y-limits are `(20.5, 0.5)` — bottom above top, i.e. the axis is inverted
with rank 1 at the top — and whose y-ticks are exactly `{1, 5, 10, 15, 20}`. -/
theorem positionChange_branch (drivers : List String)
    (lapsFor : String → List Lap) :
    positionChangePanel (sessionCode "Qualifying") drivers lapsFor =
      .note "No Position change during Qualifying" ∧
    ((∀ d ∈ drivers, lapsFor d ≠ []) →
      ∃ series ylim yticks,
        positionChangePanel (sessionCode "Race") drivers lapsFor =
          .chart series ylim yticks ∧
        ylim = (41 / 2, 1 / 2) ∧ ylim.1 > ylim.2 ∧
        yticks = [1, 5, 10, 15, 20]) := by
  constructor
  · rfl
  · intro h
    obtain ⟨series, hok⟩ := mapM_driverSeries_ok lapsFor drivers h
    refine ⟨series, (41 / 2, 1 / 2), [1, 5, 10, 15, 20], ?_, rfl, ?_, rfl⟩
    · show positionChangePanel "R" drivers lapsFor = _
      rw [positionChangePanel, if_pos rfl, hok]
    · show (41 : ℚ) / 2 > 1 / 2
      norm_num

/-- Witness for C7 with one driver holding one lap: the qualifying note and
the race chart with inverted limits and the fixed ticks. -/
theorem positionChange_branch_witness :
    positionChangePanel (sessionCode "Qualifying") ["44"] (fun _ => [lapW]) =
      .note "No Position change during Qualifying" ∧
    ∃ series ylim yticks,
      positionChangePanel (sessionCode "Race") ["44"] (fun _ => [lapW]) =
        .chart series ylim yticks ∧
      ylim = (41 / 2, 1 / 2) ∧ ylim.1 > ylim.2 ∧
      yticks = [1, 5, 10, 15, 20] := by
  have h := positionChange_branch ["44"] (fun _ => [lapW])
  exact ⟨h.1, h.2 (by intro d hd; simp)⟩

/-- C10: the race branch of the position-change section reads
`drv_laps['Driver'].iloc[0]` with no emptiness check, so a single driver
with zero lap records aborts the whole panel with an exception — unlike the
gear-track loop, whose panel for the same laps degrades to a warning. -/
theorem positionChange_requires_laps (drivers : List String)
    (lapsFor : String → List Lap) (d : String)
    (hd : d ∈ drivers) (he : lapsFor d = []) :
    (∃ e, positionChangePanel "R" drivers lapsFor = .failure e) ∧
    (∀ name, ∃ msg, gearPanel d name (lapsFor d) = .warning msg) := by
  constructor
  · obtain ⟨e, herr⟩ := mapM_driverSeries_error lapsFor drivers d hd he
    refine ⟨e, ?_⟩
    rw [positionChangePanel, if_pos rfl, herr]
  · intro name
    rw [he]
    exact ⟨"No lap data available for " ++ d, rfl⟩

/-- Witness for C10: a grid whose only driver `"1"` has no laps makes the
race position-change panel fail while their gear panel is a warning. -/
theorem positionChange_requires_laps_witness :
    (∃ e, positionChangePanel "R" ["1"] (fun _ => []) =
      PositionPanel.failure e) ∧
    (∀ name, ∃ msg, gearPanel "1" name ((fun _ => ([] : List Lap)) "1") =
      GearPanel.warning msg) :=
  positionChange_requires_laps ["1"] (fun _ => []) "1" (by simp) rfl

/-- The sort key in
`sorted(optionsdrivers, key=lambda x: x[2].lower() if len(x) > 2 else x)`:
for a broadcast name longer than two characters, the lowercased character at
index 2 as a one-character string; otherwise the name itself. -/
def driverKey (x : String) : String :=
  if x.length > 2 then String.mk [(x.data.getD 2 ' ').toLower] else x

/-- `sorted_drivers = sorted(optionsdrivers, key=...)`: Python's stable sort
of the broadcast names by the key under lexicographic string order,
modelled with merge sort. -/
def sorted_drivers (optionsdrivers : List String) : List String :=
  optionsdrivers.mergeSort fun a b => decide (driverKey a ≤ driverKey b)

/-- C8: the driver dropdown list is a permutation of the session's broadcast
names, ordered by the fixed-position key — the lowercased third character of
a name longer than two characters, the name itself otherwise. -/
theorem sorted_drivers_spec (optionsdrivers : List String) :
    (sorted_drivers optionsdrivers).Perm optionsdrivers ∧
    (sorted_drivers optionsdrivers).Pairwise
      (fun a b => driverKey a ≤ driverKey b) := by
  constructor
  · exact List.mergeSort_perm _ _
  · have hp := @List.sorted_mergeSort String
      (fun a b => decide (driverKey a ≤ driverKey b))
      (fun a b c hab hbc => by
        simp only [decide_eq_true_eq] at hab hbc ⊢
        exact le_trans hab hbc)
      (fun a b => by
        simpa using le_total (driverKey a) (driverKey b))
      optionsdrivers
    exact hp.imp fun h => of_decide_eq_true h

/-- The news request the script builds:
`GNews(language='en', country='US', start_date=..., end_date=...)` with
`google_news.max_results = 3`, queried with
`f'{race_selection} {year_selection}'`.  Calendar timestamps are modelled
as day indices, so `race.date + timedelta(days=1)` is the successor day. -/
structure NewsQuery where
  language : String
  country : String
  startDate : ℕ
  endDate : ℕ
  maxResults : ℕ
  query : String
deriving DecidableEq, Repr

/-- Lines 201–210 of the script: `race_date_1dayafter = race.date +
timedelta(days=1)` supplies both the `start_date` and the `end_date` of the
client, `max_results` is set to 3, and the query string interpolates the
race selection and the year. -/
def headlineQuery (raceDate : ℕ) (raceSelection : String)
    (yearSelection : ℤ) : NewsQuery :=
  { language := "en"
    country := "US"
    startDate := raceDate + 1
    endDate := raceDate + 1
    maxResults := 3
    query := raceSelection ++ " " ++ toString yearSelection }

/-- Modelled from the spec: the news client — "returns up to three news
items (title, URL)"; `get_news` yields at most `max_results` of whatever
articles the service finds for the query and date window. -/
def get_news (serviceResults : List (String × String)) (q : NewsQuery) :
    List (String × String) :=
  serviceResults.take q.maxResults

/-- C9: the headline lookup uses a one-day window — start date equal to end
date, both the day after the race date — and a maximum of three results, so
at most three (title, url) pairs come back per render. -/
theorem headlineQuery_spec (raceDate : ℕ) (raceSelection : String)
    (yearSelection : ℤ) (serviceResults : List (String × String)) :
    (headlineQuery raceDate raceSelection yearSelection).startDate =
      (headlineQuery raceDate raceSelection yearSelection).endDate ∧
    (headlineQuery raceDate raceSelection yearSelection).startDate =
      raceDate + 1 ∧
    (headlineQuery raceDate raceSelection yearSelection).maxResults = 3 ∧
    (get_news serviceResults
      (headlineQuery raceDate raceSelection yearSelection)).length ≤ 3 := by
  refine ⟨rfl, rfl, rfl, ?_⟩
  exact List.length_take_le 3 serviceResults
